import Mathlib

set_option maxRecDepth 100000

/-!
Verification of the attribute tokenizer and the typed-record to
relational-row mapping layer of tibiawiki-sql.

The tokenizer (`parse_attributes`), the generic `Row` construction, insert
and lookup contract, the `Parseable.from_article` gate, the per-kind
attribute maps of `Creature`, `Item` and `Key`, and the name-resolving
inserts of `CreatureDrop` and `Key` are embedded from
`src/tibiawikisql/models/abc.py`, `creature.py` and `item.py`.  Components
of the repository that are not under `src/` (`tibiawikisql/utils.py`,
`database.py`, `schema.py`) are modelled from the spec; each such
definition carries a doc comment saying so.
-/

/-- Whitespace characters stripped by Python's `str.strip()` (ASCII part). -/
def isPySpace (c : Char) : Bool :=
  c = ' ' ∨ c = '\t' ∨ c = '\n' ∨ c = '\x0b' ∨ c = '\x0c' ∨ c = '\r'

/-- Strip trailing then leading Python whitespace. -/
def pyTrimList (l : List Char) : List Char :=
  (l.rdropWhile isPySpace).dropWhile isPySpace

/-- Python's `str.strip()` with no arguments. -/
def pyTrim (s : String) : String :=
  ⟨pyTrimList s.data⟩

/-- Python's `str.lower()` (ASCII). -/
def pyLower (s : String) : String :=
  ⟨s.data.map Char.toLower⟩

/-- Python dict assignment `m[k] = v` on an insertion-ordered association
list: replaces the value of an existing key in place, else appends. -/
def setA {α : Type} : List (String × α) → String → α → List (String × α)
  | [], k, v => [(k, v)]
  | (k0, v0) :: t, k, v =>
    if k0 = k then (k0, v) :: t else (k0, v0) :: setA t k v

/-- Python dict membership / `get`: first entry with the given key. -/
def lookupP {α : Type} : List (String × α) → String → Option α
  | [], _ => none
  | (k0, v) :: t, k => if k0 = k then some v else lookupP t k

/-- Scan state of `parse_attributes`: the nesting depth counter, the
"parsing value" flag, the two accumulation buffers and the attribute map
built so far.  `depth` is an `Int` because the Python counter is decremented
on every closing bracket, matched or not. -/
structure PState where
  depth : Int
  parse_value : Bool
  attr : String
  value : String
  attributes : List (String × String)
deriving DecidableEq

/-- Commit the pending pair: `attributes[attribute.strip()] = value.strip()`,
reset both buffers and the flag (abc.py lines 41-45 and 50-53). -/
def commitPair (st : PState) : PState :=
  { st with attributes := setA st.attributes (pyTrim st.attr) (pyTrim st.value),
            parse_value := false, attr := "", value := "" }

/-- Append a character to the buffer selected by the `parse_value` flag
(abc.py lines 31-34, 37-40, 54-57). -/
def pushCur (st : PState) (c : Char) : PState :=
  if st.parse_value then { st with value := st.value.push c }
  else { st with attr := st.attr.push c }

/-- One iteration of the character loop of `parse_attributes`
(abc.py lines 28-57), in the source's branch order. -/
def step (st : PState) (c : Char) : PState :=
  if c = '{' ∨ c = '[' then
    let st' : PState := { st with depth := st.depth + 1 }
    if st'.depth ≥ 3 then pushCur st' c else st'
  else if c = '}' ∨ c = ']' then
    let st1 : PState := if st.depth ≥ 3 then pushCur st c else st
    let st2 : PState := if st.depth = 2 then commitPair st1 else st1
    { st2 with depth := st2.depth - 1 }
  else if c = '=' ∧ st.depth = 2 then { st with parse_value := true }
  else if c = '|' ∧ st.depth = 2 then commitPair st
  else pushCur st c

/-- Initial scan state (abc.py lines 22-26). -/
def initState : PState :=
  ⟨0, false, "", "", []⟩

/-- Final comprehension of `parse_attributes` (abc.py line 58):
`dict((k, v.strip()) for k, v in attributes.items() if v.strip())`. -/
def finalize (m : List (String × String)) : List (String × String) :=
  (m.map (fun kv => (kv.1, pyTrim kv.2))).filter (fun kv => decide (kv.2 ≠ ""))

/-- `parse_attributes` (abc.py lines 8-58): tokenize an Infobox template into
its attribute map. -/
def parse_attributes (content : String) : List (String × String) :=
  finalize (content.data.foldl step initState).attributes

/-- A Python/SQLite value: `None`/NULL, integer, real, text or boolean.
Booleans exist only in memory; the store keeps them as 0/1. -/
inductive Val where
  | none
  | int (n : Int)
  | real (q : Rat)
  | text (s : String)
  | bool (b : Bool)
deriving DecidableEq

/-- Column types in the relational sense. -/
inductive ColType where
  | integer
  | real
  | text
  | boolean
deriving DecidableEq

/-- Modelled from the spec: a column descriptor of `database.py`, exposing
name, semantic type and default value. -/
structure Column where
  name : String
  ctype : ColType
  default : Val
deriving DecidableEq

/-- Modelled from the spec: a table descriptor of `schema.py` /
`database.py`: a table name and an ordered list of columns. -/
structure Table where
  tablename : String
  columns : List Column

/-- Python truthiness (`bool(x)`). -/
def pyBool : Val → Bool
  | .none => false
  | .int n => decide (n ≠ 0)
  | .real q => decide (q ≠ 0)
  | .text s => decide (s ≠ "")
  | .bool b => b

/-- Python `==` on values: numeric types compare across `int`, `float` and
`bool` (`True == 1`), `None` equals only `None`, text compares as text. -/
def pyEq : Val → Val → Bool
  | .none, .none => true
  | .int a, .int b => decide (a = b)
  | .int a, .bool b => decide (a = (if b then 1 else 0))
  | .bool a, .int b => decide ((if a then (1 : Int) else 0) = b)
  | .bool a, .bool b => decide (a = b)
  | .int a, .real q => decide ((a : Rat) = q)
  | .real q, .int a => decide (q = (a : Rat))
  | .real p, .real q => decide (p = q)
  | .real p, .bool b => decide (p = (if b then 1 else 0))
  | .bool b, .real p => decide ((if b then (1 : Rat) else 0) = p)
  | .text a, .text b => decide (a = b)
  | _, _ => false

/-- Modelled from the spec: how sqlite3 stores a bound Python value —
booleans become 0/1, everything else is kept. -/
def toSql : Val → Val
  | .bool b => .int (if b then 1 else 0)
  | v => v

/-- Modelled from the spec: SQL `=` comparison — NULL matches nothing,
numerics compare across int/real, text compares exactly. -/
def sqlEq : Val → Val → Bool
  | .none, _ => false
  | _, .none => false
  | .int a, .int b => decide (a = b)
  | .int a, .real q => decide ((a : Rat) = q)
  | .real q, .int a => decide (q = (a : Rat))
  | .real p, .real q => decide (p = q)
  | .text a, .text b => decide (a = b)
  | .bool a, .bool b => decide (a = b)
  | _, _ => false

/-- The per-column conversion of `Row.__init__` (abc.py lines 128-133):
SQLite booleans are stored as 0/1, so boolean columns pass through
`bool(...)`. -/
def convCol (c : Column) (v : Val) : Val :=
  if c.ctype = ColType.boolean then .bool (pyBool v) else v

/-- `Row.__init__` (abc.py lines 127-135): for every declared column take
`kwargs.get(c.name, c.default)`, converting boolean columns to true
booleans. -/
def rowInitFields (t : Table) (kwargs : List (String × Val)) : List (String × Val) :=
  t.columns.map (fun c => (c.name, convCol c ((lookupP kwargs c.name).getD c.default)))

/-- A constructed `Row` model instance: its declared fields plus the
`raw_attributes` overflow dictionary. -/
structure RowRec where
  fields : List (String × Val)
  raw_attributes : List (String × String)
deriving DecidableEq

/-- Construct a `Row` from keyword arguments (abc.py lines 127-135). -/
def rowInit (t : Table) (kwargs : List (String × Val))
    (raw : List (String × String)) : RowRec :=
  ⟨rowInitFields t kwargs, raw⟩

/-- `getattr(record, name)` for declared fields (defaults to `None` for a
name that is not a field). -/
def rget (r : RowRec) (name : String) : Val :=
  (lookupP r.fields name).getD Val.none

/-- The filter of `Row.insert` (abc.py lines 157-165): keep a column's value
only if the attribute exists and differs from the column default. -/
def keepVal (c : Column) (r : RowRec) : Option Val :=
  match lookupP r.fields c.name with
  | Option.none => Option.none
  | some v => if pyEq v c.default = true then Option.none else some v

/-- `Row.insert` (abc.py lines 148-166): the dictionary of columns actually
written — every declared column whose value differs from its default. -/
def insertRows (t : Table) (r : RowRec) : List (String × Val) :=
  t.columns.filterMap (fun c => (keepVal c r).map (fun v => (c.name, v)))

/-- Modelled from the spec: the store materializes an inserted row — every
declared column gets the bound value if provided, else the declared
default; bound booleans are stored as 0/1. -/
def storeRow (t : Table) (rows : List (String × Val)) : List (String × Val) :=
  t.columns.map (fun c => (c.name, toSql ((lookupP rows c.name).getD c.default)))

/-- `Row._get_by_field` (abc.py lines 187-196) over a modelled store (a list
of materialized rows): return the first row whose field matches, rebuilt
through `from_row`/`__init__`, or `none`. -/
def getByField (t : Table) (store : List (List (String × Val)))
    (field : String) (v : Val) : Option RowRec :=
  match store.find? (fun row => sqlEq ((lookupP row field).getD Val.none) v) with
  | Option.none => Option.none
  | some row => some (rowInit t row [])

/-- Modelled from the spec: a schema is well typed when boolean columns have
boolean defaults and non-boolean columns do not have boolean defaults. -/
def WellTyped (t : Table) : Prop :=
  ∀ c ∈ t.columns,
    (c.ctype = ColType.boolean → ∃ b, c.default = Val.bool b) ∧
    (c.ctype ≠ ColType.boolean → ∀ b, c.default ≠ Val.bool b)

/-- A small creature-like table used as a concrete witness schema. -/
def demoTable : Table :=
  ⟨"creature", [⟨"article_id", ColType.integer, Val.none⟩,
    ⟨"name", ColType.text, Val.none⟩,
    ⟨"boss", ColType.boolean, Val.bool false⟩]⟩

/-- Concrete keyword arguments for the witness record. -/
def demoKwargs : List (String × Val) :=
  [("article_id", Val.int 1), ("name", Val.text "Demon"), ("boss", Val.int 1)]

/-- A Python exception, as surfaced by a conversion or an insert. -/
inductive PyErr where
  | valueError
  | typeError
deriving DecidableEq

/-- A conversion function of a `_map` entry: raw string in, typed value out,
possibly raising. -/
def Conv : Type := String → Except PyErr Val

/-- A total conversion that never raises. -/
def okConv (f : String → Val) : Conv := fun s => .ok (f s)

/-- The identity conversion `lambda x: x`. -/
def idConv : Conv := okConv (fun s => Val.text s)

/-- Base-10 value of a digit run. -/
def digitsToNat (l : List Char) : Nat :=
  l.foldl (fun acc c => acc * 10 + (c.toNat - '0'.toNat)) 0

/-- Maximal runs of decimal digits in a character list, left to right
(accumulator first). -/
def digitRunsAux : List Char → List Char → List (List Char)
  | cur, [] => if cur = [] then [] else [cur.reverse]
  | cur, c :: rest =>
    if c.isDigit then digitRunsAux (c :: cur) rest
    else if cur = [] then digitRunsAux [] rest
    else cur.reverse :: digitRunsAux [] rest

/-- Modelled from the spec: `int_pattern.findall` of `utils.py` — every
maximal digit run in the string. -/
def digitRuns (l : List Char) : List (List Char) :=
  digitRunsAux [] l

/-- Modelled from the spec: `parse_integer` of `utils.py` — the first
integer found in the string, tolerant of stray non-digit characters,
returning the caller-supplied default when no digits occur. -/
def parse_integer (s : String) (default : Val) : Val :=
  match digitRuns s.data with
  | [] => default
  | r :: _ => Val.int (digitsToNat r)

/-- `parse_maximum_integer` (creature.py lines 11-31): the largest integer
found, or `None` when the string has none (`max` of an empty list raises
`ValueError`, which the source catches and turns into `None`). -/
def parse_maximum_integer (value : String) : Val :=
  match (digitRuns value.data).map (fun r => (digitsToNat r : Int)) with
  | [] => Val.none
  | x :: xs => Val.int (xs.foldl max x)

/-- Modelled from the spec: `parse_boolean` of `utils.py` — case-insensitive
match against the literal "yes", caller-supplied default otherwise. -/
def parse_boolean (value : String) (default : Val) : Val :=
  if pyLower (pyTrim value) = "yes" then Val.bool true else default

/-- Display text of one wiki link body: the segment after the last `|`. -/
def lastSegAfterBar (l : List Char) : List Char :=
  ((l.reverse.takeWhile (fun c => decide (c ≠ '|'))).reverse)

/-- Fuel-driven scan for `clean_links`. -/
def cleanLinksAux : Nat → List Char → List Char
  | 0, l => l
  | _ + 1, [] => []
  | fuel + 1, '[' :: '[' :: rest =>
    lastSegAfterBar (rest.takeWhile (fun c => decide (c ≠ ']'))) ++
      cleanLinksAux fuel ((rest.dropWhile (fun c => decide (c ≠ ']'))).drop 2)
  | fuel + 1, c :: rest => c :: cleanLinksAux fuel rest

/-- Modelled from the spec: `clean_links` of `utils.py` — removes `[[...]]`
link markup, keeping the display text (the part after the `|` if present),
and trims the result. -/
def clean_links (s : String) : String :=
  pyTrim ⟨cleanLinksAux s.data.length s.data⟩

/-- First decimal number (integer digits, optional fractional digits) in a
character list. -/
def firstNumber : List Char → Option (List Char × List Char)
  | [] => none
  | c :: rest =>
    if c.isDigit then
      some (c :: rest.takeWhile Char.isDigit,
        match rest.dropWhile Char.isDigit with
        | '.' :: r => r.takeWhile Char.isDigit
        | _ => [])
    else firstNumber rest

/-- Modelled from the spec: `parse_float` of `utils.py` — the first decimal
number in the string, returning the caller-supplied default when none
occurs. -/
def parse_float (s : String) (default : Val) : Val :=
  match firstNumber s.data with
  | none => default
  | some (ip, fp) =>
    Val.real ((digitsToNat ip : Rat) + (digitsToNat fp : Rat) / ((10 : Rat) ^ fp.length))

/-- The element words of `parse_monster_walks` (creature.py lines 72-73),
in the regex's alternation order. -/
def walkWords : List (List Char) :=
  ["physical".data, "holy".data, "death".data, "fire".data,
   "ice".data, "energy".data, "earth".data, "poison".data]

/-- Whether `p` starts the list `l`. -/
def startsWithL : List Char → List Char → Bool
  | [], _ => true
  | _ :: _, [] => false
  | p :: ps, c :: cs => p = c && startsWithL ps cs

/-- Try to match one element word followed by `,` or end of input at the
head of `l`; on success return the matched text and the rest. -/
def tryWordAt (w : List Char) (l : List Char) : Option (List Char × List Char) :=
  if startsWithL w l then
    match l.drop w.length with
    | ',' :: rest => some (w ++ [','], rest)
    | [] => some (w, [])
    | _ => none
  else none

/-- First word of `ws` matching at the head of `l`. -/
def tryWords : List (List Char) → List Char → Option (List Char × List Char)
  | [], _ => none
  | w :: ws, l =>
    match tryWordAt w l with
    | some r => some r
    | none => tryWords ws l

/-- Fuel-driven left-to-right non-overlapping regex scan of
`parse_monster_walks` (`re.finditer` semantics). -/
def walksScanAux : Nat → List Char → List Char
  | 0, _ => []
  | _ + 1, [] => []
  | fuel + 1, c :: rest =>
    match tryWords walkWords (c :: rest) with
    | some (m, r) => m ++ walksScanAux fuel r
    | none => walksScanAux fuel rest

/-- `parse_monster_walks` (creature.py lines 51-79): concatenate every
element-word match (with its trailing comma) of the lowered, stripped
input; `None` when nothing matches. -/
def parse_monster_walks (value : String) : Val :=
  match walksScanAux value.data.length (pyTrim (pyLower value)).data with
  | [] => Val.none
  | content => Val.text ⟨content⟩

/-- Python's `int(str)` constructor: strips whitespace, accepts an optional
sign followed by digits only, raises `ValueError` otherwise. -/
def pyInt (s : String) : Except PyErr Val :=
  match (pyTrim s).data with
  | '+' :: ds =>
    if ds ≠ [] ∧ ds.all Char.isDigit then .ok (.int (digitsToNat ds))
    else .error .valueError
  | '-' :: ds =>
    if ds ≠ [] ∧ ds.all Char.isDigit then .ok (.int (-(digitsToNat ds : Int)))
    else .error .valueError
  | ds =>
    if ds ≠ [] ∧ ds.all Char.isDigit then .ok (.int (digitsToNat ds))
    else .error .valueError

/-- One article unit of work, as consumed from the fetch layer. -/
structure Article where
  article_id : Int
  title : String
  timestamp : String
  content : String

/-- The inner loop of `Parseable.from_article` (abc.py lines 107-112):
route unmapped attributes to `raw_attributes`, convert mapped ones and
assign them to their column (a later entry for the same column overwrites,
as in the Python `dict`). -/
def applyMap (map : List (String × String × Conv)) :
    List (String × String) → List (String × Val) → List (String × String) →
    Except PyErr (List (String × Val) × List (String × String))
  | [], kw, raw => .ok (kw, raw)
  | (a, v) :: rest, kw, raw =>
    match lookupP map a with
    | Option.none => applyMap map rest kw (raw ++ [(a, v)])
    | some (col, f) =>
      match f v with
      | .error e => .error e
      | .ok val => applyMap map rest (setA kw col val) raw

/-- `Parseable.from_article` (abc.py lines 84-113): `None` when the content
lacks the record kind's marker pattern; otherwise tokenize, map attributes
and construct the row (a conversion may raise, aborting construction). -/
def fromArticle (map : List (String × String × Conv)) (pat : String → Bool)
    (t : Table) (a : Article) : Except PyErr (Option RowRec) :=
  if pat a.content = false then .ok Option.none
  else
    match applyMap map (parse_attributes a.content)
        [("article_id", Val.int a.article_id), ("timestamp", Val.text a.timestamp),
         ("title", Val.text a.title)] [] with
    | .error e => .error e
    | .ok (kw, raw) => .ok (some (rowInit t kw raw))

/-- The separator class `[\s_]` of the marker patterns. -/
def isSepChar (c : Char) : Bool := isPySpace c || c = '_'

/-- Whether `word1 ++ [sep] ++ word2` matches at the head of `l`. -/
def markerAt (word1 word2 : List Char) (l : List Char) : Bool :=
  startsWithL word1 l &&
    (match l.drop word1.length with
     | [] => false
     | c :: rest => isSepChar c && startsWithL word2 rest)

/-- `re.search` of a `word1[\s_]word2` pattern: match at any position. -/
def searchMarker (word1 word2 : List Char) : List Char → Bool
  | [] => false
  | c :: rest => markerAt word1 word2 (c :: rest) || searchMarker word1 word2 rest

/-- `Creature._pattern` (creature.py line 199): `Infobox[\s_]Creature`. -/
def hasCreatureMarker (s : String) : Bool :=
  searchMarker "Infobox".data "Creature".data s.data

/-- `Key._pattern` (item.py line 167): `Infobox[\s_]Key`. -/
def hasKeyMarker (s : String) : Bool :=
  searchMarker "Infobox".data "Key".data s.data

/-- `Creature._map` (creature.py lines 164-198). -/
def creature_map : List (String × String × Conv) :=
  [("article", ("article", idConv)),
   ("name", ("name", idConv)),
   ("actualname", ("name", idConv)),
   ("creatureclass", ("class", idConv)),
   ("bestiaryclass", ("bestiary_class", idConv)),
   ("bestiarylevel", ("bestiary_level", idConv)),
   ("occurrence", ("bestiary_occurrence", idConv)),
   ("primarytype", ("type", idConv)),
   ("hp", ("hitpoints", okConv (fun x => parse_integer x Val.none))),
   ("exp", ("experience", okConv (fun x => parse_integer x Val.none))),
   ("armor", ("armor", okConv (fun x => parse_integer x Val.none))),
   ("speed", ("speed", okConv (fun x => parse_integer x Val.none))),
   ("maxdmg", ("max_damage", okConv parse_maximum_integer)),
   ("summon", ("summon_cost", okConv (fun x => parse_integer x (Val.int 0)))),
   ("convince", ("convince_cost", okConv (fun x => parse_integer x (Val.int 0)))),
   ("illusionable", ("illusionable", okConv (fun x => parse_boolean x (Val.bool false)))),
   ("pushable", ("pushable", okConv (fun x => parse_boolean x (Val.bool false)))),
   ("senseinvis", ("sees_invisible", okConv (fun x => parse_boolean x (Val.bool false)))),
   ("paraimmune", ("paralysable",
     okConv (fun x => Val.bool (!(pyBool (parse_boolean x Val.none)))))),
   ("isboss", ("boss", okConv (fun x => parse_boolean x (Val.bool false)))),
   ("physicalDmgMod", ("modifier_physical", okConv (fun x => parse_integer x (Val.int 0)))),
   ("earthDmgMod", ("modifier_earth", okConv (fun x => parse_integer x (Val.int 0)))),
   ("fireDmgMod", ("modifier_fire", okConv (fun x => parse_integer x (Val.int 0)))),
   ("iceDmgMod", ("modifier_ice", okConv (fun x => parse_integer x (Val.int 0)))),
   ("energyDmgMod", ("modifier_energy", okConv (fun x => parse_integer x (Val.int 0)))),
   ("deathDmgMod", ("modifier_death", okConv (fun x => parse_integer x (Val.int 0)))),
   ("holyDmgMod", ("modifier_holy", okConv (fun x => parse_integer x (Val.int 0)))),
   ("drownDmgMod", ("modifier_drown", okConv (fun x => parse_integer x (Val.int 0)))),
   ("hpDrainDmgMod", ("modifier_hpdrain", okConv (fun x => parse_integer x (Val.int 0)))),
   ("abilities", ("abilities", okConv (fun x => Val.text (clean_links x)))),
   ("walksthrough", ("walks_through", okConv parse_monster_walks)),
   ("walksaround", ("walks_around", okConv parse_monster_walks)),
   ("implemented", ("version", idConv))]

/-- `Item._map` (item.py lines 43-55). -/
def item_map : List (String × String × Conv) :=
  [("article", ("article", idConv)),
   ("actualname", ("name", idConv)),
   ("weight", ("weight", okConv (fun x => parse_float x (Val.int 0)))),
   ("stackable", ("stackable", okConv (fun x => parse_boolean x (Val.bool false)))),
   ("npcvalue", ("value_sell", okConv (fun x => parse_integer x (Val.int 0)))),
   ("npcprice", ("value_buy", okConv (fun x => parse_integer x (Val.int 0)))),
   ("flavortext", ("flavor_text", idConv)),
   ("itemclass", ("class", idConv)),
   ("primarytype", ("type", idConv)),
   ("implemented", ("version", idConv)),
   ("itemid", ("client_id", okConv (fun x => parse_integer x (Val.int 0))))]

/-- `Key._map` (item.py lines 158-166).  Note: the `number` attribute is
converted with Python's bare `int`, which raises `ValueError` on a
non-numeric string. -/
def key_map : List (String × String × Conv) :=
  [("aka", ("name", okConv (fun x => Val.text (clean_links x)))),
   ("number", ("number", pyInt)),
   ("primarytype", ("material", idConv)),
   ("location", ("location", okConv (fun x => Val.text (clean_links x)))),
   ("origin", ("origin", okConv (fun x => Val.text (clean_links x)))),
   ("shortnotes", ("notes", okConv (fun x => Val.text (clean_links x)))),
   ("implemented", ("version", idConv))]

/-- Modelled from the spec: the `item_key` table, with the columns named by
the explicit INSERT statement of `Key.insert` (item.py lines 174-176). -/
def keyTable : Table :=
  ⟨"item_key",
   [⟨"article_id", ColType.integer, Val.none⟩,
    ⟨"title", ColType.text, Val.none⟩,
    ⟨"number", ColType.integer, Val.none⟩,
    ⟨"item_id", ColType.integer, Val.none⟩,
    ⟨"name", ColType.text, Val.none⟩,
    ⟨"material", ColType.text, Val.none⟩,
    ⟨"location", ColType.text, Val.none⟩,
    ⟨"origin", ColType.text, Val.none⟩,
    ⟨"notes", ColType.text, Val.none⟩,
    ⟨"version", ColType.text, Val.none⟩,
    ⟨"timestamp", ColType.text, Val.none⟩]⟩

/-- Modelled from the spec: the `creature_drop` table named by the explicit
INSERT statement of `CreatureDrop.insert` (creature.py lines 357-358), plus
the `chance` column of the model. -/
def creatureDropTable : Table :=
  ⟨"creature_drop",
   [⟨"creature_id", ColType.integer, Val.none⟩,
    ⟨"item_id", ColType.integer, Val.none⟩,
    ⟨"min", ColType.integer, Val.none⟩,
    ⟨"max", ColType.integer, Val.none⟩,
    ⟨"chance", ColType.real, Val.none⟩]⟩

/-- Modelled from the spec: the database state relevant to the dependent
inserts — the materialized rows of the `item`, `creature_drop` and
`item_key` tables. -/
structure DB where
  item : List (List (String × Val))
  creature_drop : List (List (String × Val))
  item_key : List (List (String × Val))

/-- Modelled from the spec: the scalar subquery
`(SELECT article_id FROM item WHERE title = ?)` — the id of the first item
row whose title matches, NULL when none does. -/
def itemIdByTitle (items : List (List (String × Val))) (t : Val) : Val :=
  match items.find? (fun row => sqlEq ((lookupP row "title").getD Val.none) t) with
  | Option.none => Val.none
  | some row => (lookupP row "article_id").getD Val.none

/-- A `CreatureDrop` instance (creature.py lines 304-330): its table fields
plus the `item_name`/`creature_name` slots set by `__init__` outside the
table columns. -/
structure CreatureDropRec where
  fields : List (String × Val)
  item_name : Val
  creature_name : Val

/-- `CreatureDrop.__init__` (creature.py lines 327-330). -/
def creatureDropInit (kwargs : List (String × Val)) : CreatureDropRec :=
  ⟨rowInitFields creatureDropTable kwargs,
   (lookupP kwargs "item_name").getD Val.none,
   (lookupP kwargs "creature_name").getD Val.none⟩

/-- `CreatureDrop.insert` (creature.py lines 344-359): with a truthy
`item_id` use the generic insert; otherwise insert with the item id
resolved by the title subquery from `item_name` — a failed resolution
writes NULL. -/
def creatureDropInsert (d : CreatureDropRec) (db : DB) : DB :=
  if pyBool ((lookupP d.fields "item_id").getD Val.none) then
    { db with creature_drop := db.creature_drop ++
        [storeRow creatureDropTable (insertRows creatureDropTable ⟨d.fields, []⟩)] }
  else
    { db with creature_drop := db.creature_drop ++
        [storeRow creatureDropTable
          [("creature_id", (lookupP d.fields "creature_id").getD Val.none),
           ("item_id", itemIdByTitle db.item d.item_name),
           ("min", (lookupP d.fields "min").getD Val.none),
           ("max", (lookupP d.fields "max").getD Val.none)]] }

/-- Python string concatenation `v + t`: a `TypeError` unless `v` is text
(`self.material + " Key"` in `Key.insert`). -/
def pyAddStr (v : Val) (t : String) : Except PyErr Val :=
  match v with
  | .text s => .ok (.text (s ++ t))
  | _ => .error .typeError

/-- `Key.insert` (item.py lines 169-178): with a truthy `item_id` use the
generic insert; otherwise insert all columns explicitly, resolving
`item_id` by title `material + " Key"` through the item subquery. -/
def keyInsert (k : RowRec) (db : DB) : Except PyErr DB :=
  if pyBool (rget k "item_id") then
    .ok { db with item_key := db.item_key ++
        [storeRow keyTable (insertRows keyTable k)] }
  else
    match pyAddStr (rget k "material") " Key" with
    | .error e => .error e
    | .ok lookupTitle =>
      .ok { db with item_key := db.item_key ++
        [storeRow keyTable
          [("article_id", rget k "article_id"), ("title", rget k "title"),
           ("number", rget k "number"),
           ("item_id", itemIdByTitle db.item lookupTitle),
           ("name", rget k "name"), ("material", rget k "material"),
           ("location", rget k "location"), ("origin", rget k "origin"),
           ("notes", rget k "notes"), ("version", rget k "version"),
           ("timestamp", rget k "timestamp")]] }

theorem pyTrimList_idem (l : List Char) :
    pyTrimList (pyTrimList l) = pyTrimList l := by
  unfold pyTrimList
  have h1 : ((l.rdropWhile isPySpace).dropWhile isPySpace).rdropWhile isPySpace =
      (l.rdropWhile isPySpace).dropWhile isPySpace := by
    rw [List.rdropWhile_eq_self_iff]
    intro hl
    obtain ⟨t, ht⟩ := List.dropWhile_suffix (l := l.rdropWhile isPySpace) isPySpace
    have hmne : l.rdropWhile isPySpace ≠ [] := by
      intro hh
      rw [hh] at hl
      simp [List.dropWhile] at hl
    have hsl := List.getLast?_eq_getLast ((l.rdropWhile isPySpace).dropWhile isPySpace) hl
    have hml := List.getLast?_eq_getLast (l.rdropWhile isPySpace) hmne
    have heq : (l.rdropWhile isPySpace).getLast? =
        ((l.rdropWhile isPySpace).dropWhile isPySpace).getLast? := by
      conv_lhs => rw [← ht]
      rw [List.getLast?_append, hsl]
      rfl
    rw [hml, hsl] at heq
    rw [← Option.some_inj.mp heq]
    simpa using List.rdropWhile_last_not isPySpace l hmne
  rw [h1, List.dropWhile_idempotent]

theorem pyTrim_idem (s : String) : pyTrim (pyTrim s) = pyTrim s := by
  unfold pyTrim
  exact congrArg String.mk (pyTrimList_idem s.data)

theorem setA_mem {α : Type} {m : List (String × α)} {k : String} {v : α}
    {x : String × α} (h : x ∈ setA m k v) : x = (k, v) ∨ x ∈ m := by
  induction m with
  | nil =>
    simp [setA] at h
    exact Or.inl h
  | cons kv t ih =>
    obtain ⟨k0, v0⟩ := kv
    by_cases hk : k0 = k
    · simp only [setA, if_pos hk] at h
      rcases List.mem_cons.mp h with h | h
      · subst hk; exact Or.inl h
      · exact Or.inr (List.mem_cons_of_mem _ h)
    · simp only [setA, if_neg hk] at h
      rcases List.mem_cons.mp h with h | h
      · exact Or.inr (List.mem_cons.mpr (Or.inl h))
      · rcases ih h with h | h
        · exact Or.inl h
        · exact Or.inr (List.mem_cons_of_mem _ h)

/-- The attribute map changes in a scan step exactly when a `|` is read at
depth 2 or a closing bracket is read at depth 2 (bringing the depth to 1),
and the committed pair is the stripped pending pair. -/
theorem step_attributes_eq (st : PState) (c : Char) :
    (step st c).attributes =
      if ((c = '}' ∨ c = ']') ∧ st.depth = 2) ∨ (c = '|' ∧ st.depth = 2) then
        setA st.attributes (pyTrim st.attr) (pyTrim st.value)
      else st.attributes := by
  unfold step
  by_cases h1 : c = '{' ∨ c = '['
  · have hne1 : ¬(((c = '}' ∨ c = ']') ∧ st.depth = 2) ∨ (c = '|' ∧ st.depth = 2)) := by
      rcases h1 with rfl | rfl <;> simp
    rw [if_pos h1, if_neg hne1]
    by_cases h2 : st.depth + 1 ≥ 3 <;>
      simp only [h2, ge_iff_le, if_pos, if_neg, ite_true, ite_false, pushCur] <;>
      split <;> rfl
  · rw [if_neg h1]
    by_cases h2 : c = '}' ∨ c = ']'
    · rw [if_pos h2]
      by_cases hd : st.depth = 2
      · have hpos : ((c = '}' ∨ c = ']') ∧ st.depth = 2) ∨ (c = '|' ∧ st.depth = 2) :=
          Or.inl ⟨h2, hd⟩
        rw [if_pos hpos]
        have h3 : ¬ st.depth ≥ 3 := by omega
        show (if st.depth = 2 then commitPair (if st.depth ≥ 3 then pushCur st c else st)
              else (if st.depth ≥ 3 then pushCur st c else st)).attributes =
          setA st.attributes (pyTrim st.attr) (pyTrim st.value)
        rw [if_neg h3, if_pos hd]
        rfl
      · have hne : ¬(((c = '}' ∨ c = ']') ∧ st.depth = 2) ∨ (c = '|' ∧ st.depth = 2)) := by
          rintro (⟨_, h⟩ | ⟨hc, h⟩)
          · exact hd h
          · rcases h2 with rfl | rfl <;> simp at hc
        rw [if_neg hne]
        show (if st.depth = 2 then commitPair (if st.depth ≥ 3 then pushCur st c else st)
              else (if st.depth ≥ 3 then pushCur st c else st)).attributes = st.attributes
        rw [if_neg hd]
        by_cases h3 : st.depth ≥ 3
        · rw [if_pos h3]
          unfold pushCur
          split <;> rfl
        · rw [if_neg h3]
    · rw [if_neg h2]
      by_cases h3 : c = '=' ∧ st.depth = 2
      · have hne : ¬(((c = '}' ∨ c = ']') ∧ st.depth = 2) ∨ (c = '|' ∧ st.depth = 2)) := by
          obtain ⟨rfl, _⟩ := h3
          simp
        rw [if_pos h3, if_neg hne]
      · rw [if_neg h3]
        by_cases h4 : c = '|' ∧ st.depth = 2
        · have hpos : ((c = '}' ∨ c = ']') ∧ st.depth = 2) ∨ (c = '|' ∧ st.depth = 2) :=
            Or.inr h4
          rw [if_pos h4, if_pos hpos]
          rfl
        · have hne : ¬(((c = '}' ∨ c = ']') ∧ st.depth = 2) ∨ (c = '|' ∧ st.depth = 2)) := by
            rintro (⟨hc, h⟩ | h)
            · exact h2 hc
            · exact h4 h
          rw [if_neg h4, if_neg hne]
          unfold pushCur
          split <;> rfl

/-- Keys committed into the attribute map are always stripped. -/
theorem foldl_keys_trimmed (cs : List Char) (st : PState)
    (h : ∀ kv ∈ st.attributes, pyTrim kv.1 = kv.1) :
    ∀ kv ∈ (cs.foldl step st).attributes, pyTrim kv.1 = kv.1 := by
  induction cs generalizing st with
  | nil => exact h
  | cons c rest ih =>
    refine ih (step st c) ?_
    intro kv hkv
    rw [step_attributes_eq] at hkv
    by_cases hc : ((c = '}' ∨ c = ']') ∧ st.depth = 2) ∨ (c = '|' ∧ st.depth = 2)
    · rw [if_pos hc] at hkv
      rcases setA_mem hkv with rfl | hkv
      · exact pyTrim_idem st.attr
      · exact h kv hkv
    · rw [if_neg hc] at hkv
      exact h kv hkv

/-- C6: for every scan state at depth 3 or more (and for the bracket that
raises the depth from 2 to 3), the tokenizer appends nested bracket
characters verbatim to the current attribute-name or value buffer, and an
`=` read at depth 3 or more is appended literally without flipping the
key/value flag, so it never splits the pair; end to end, a nested construct
with an inner `=` is captured verbatim as the value. -/
theorem c6_nested_brackets_verbatim :
    (∀ (st : PState) (c : Char), st.depth ≥ 2 → (c = '{' ∨ c = '[') →
        step st c = { pushCur st c with depth := st.depth + 1 })
    ∧ (∀ (st : PState) (c : Char), st.depth ≥ 3 → (c = '}' ∨ c = ']') →
        step st c = { pushCur st c with depth := st.depth - 1 })
    ∧ (∀ st : PState, st.depth ≥ 3 → step st '=' = pushCur st '=')
    ∧ parse_attributes "\x7b\x7bInfobox|a=[[x=y]]|b=1\x7d\x7d" = [("a", "[[x=y]]"), ("b", "1")] := by
  refine ⟨?_, ?_, ?_, by decide⟩
  · intro st c h2 hc
    unfold step
    rw [if_pos hc]
    show (if st.depth + 1 ≥ 3 then pushCur { st with depth := st.depth + 1 } c
          else { st with depth := st.depth + 1 }) = _
    rw [if_pos (by omega)]
    unfold pushCur
    by_cases hv : st.parse_value <;> simp [hv]
  · intro st c h3 hc
    have hno : ¬(c = '{' ∨ c = '[') := by
      rcases hc with rfl | rfl <;> simp
    unfold step
    rw [if_neg hno, if_pos hc]
    show ({ (if st.depth = 2 then commitPair (if st.depth ≥ 3 then pushCur st c else st)
            else (if st.depth ≥ 3 then pushCur st c else st)) with
            depth := (if st.depth = 2 then commitPair (if st.depth ≥ 3 then pushCur st c else st)
            else (if st.depth ≥ 3 then pushCur st c else st)).depth - 1 } : PState) = _
    rw [if_neg (by omega : ¬ st.depth = 2), if_pos h3]
    unfold pushCur
    by_cases hv : st.parse_value <;> simp [hv]
  · intro st h3
    unfold step
    rw [if_neg (by decide : ¬('=' = '{' ∨ '=' = '[')),
        if_neg (by decide : ¬('=' = '}' ∨ '=' = ']')),
        if_neg (by rintro ⟨_, h⟩; omega : ¬('=' = '=' ∧ st.depth = 2)),
        if_neg (by simp : ¬('=' = '|' ∧ st.depth = 2))]

/-- Witness for C6 at concrete states of depth 2 and 3. -/
theorem c6_nested_brackets_verbatim_witness :
    step ⟨2, true, "a", "", []⟩ '[' = ⟨3, true, "a", "[", []⟩ ∧
    step ⟨3, true, "a", "[x", []⟩ ']' = ⟨2, true, "a", "[x]", []⟩ ∧
    step ⟨3, true, "a", "[[x", []⟩ '=' = ⟨3, true, "a", "[[x=", []⟩ := by
  refine ⟨?_, ?_, ?_⟩
  · rw [c6_nested_brackets_verbatim.1 ⟨2, true, "a", "", []⟩ '[' (by decide) (Or.inr rfl)]
    decide
  · rw [c6_nested_brackets_verbatim.2.1 ⟨3, true, "a", "[x", []⟩ ']' (by decide) (Or.inr rfl)]
    decide
  · rw [c6_nested_brackets_verbatim.2.2.1 ⟨3, true, "a", "[[x", []⟩ (by decide)]
    decide

/-- C7: every key and every value of the tokenizer's output map is free of
leading and trailing whitespace, and no value is the empty string
(empty-valued attributes are dropped by the final comprehension). -/
theorem c7_trimmed_nonempty (content : String) (k v : String)
    (h : (k, v) ∈ parse_attributes content) :
    pyTrim k = k ∧ pyTrim v = v ∧ v ≠ "" := by
  unfold parse_attributes finalize at h
  rw [List.mem_filter] at h
  obtain ⟨hmap, hne⟩ := h
  rw [List.mem_map] at hmap
  obtain ⟨kv0, hkv0, heq⟩ := hmap
  rw [Prod.mk.injEq] at heq
  obtain ⟨hk, hv⟩ := heq
  refine ⟨?_, ?_, ?_⟩
  · rw [← hk]
    exact foldl_keys_trimmed content.data initState (by intro kv hkv; simp [initState] at hkv)
      kv0 hkv0
  · rw [← hv]
    exact pyTrim_idem kv0.2
  · exact of_decide_eq_true hne

/-- Witness for C7 on a concrete article text with padded attributes. -/
theorem c7_trimmed_nonempty_witness :
    ((("name", "Demon") ∈ parse_attributes "\x7b\x7bInfobox| name = Demon |empty= \x7d\x7d") ∧
      pyTrim "name" = "name") ∧ pyTrim "Demon" = "Demon" ∧ "Demon" ≠ "" := by
  have hm : ("name", "Demon") ∈ parse_attributes "\x7b\x7bInfobox| name = Demon |empty= \x7d\x7d" := by
    decide
  exact ⟨⟨hm, (c7_trimmed_nonempty _ _ _ hm).1⟩, (c7_trimmed_nonempty _ _ _ hm).2⟩

/-- C8: the tokenizer commits the pending key/value pair exactly on a `|` at
depth 2 or on a closing delimiter at depth 2 (which brings the depth down to
1); with a missing closing delimiter the final pair is never committed, so
its content (here `b=2`) is absent from the output. -/
theorem c8_commit_points :
    (∀ (st : PState) (c : Char),
        (step st c).attributes =
          if ((c = '}' ∨ c = ']') ∧ st.depth = 2) ∨ (c = '|' ∧ st.depth = 2) then
            setA st.attributes (pyTrim st.attr) (pyTrim st.value)
          else st.attributes)
    ∧ parse_attributes "\x7b\x7bInfobox|a=1|b=2" = [("a", "1")] :=
  ⟨step_attributes_eq, by decide⟩

/-- C10: an `=` read at depth exactly 2 only sets the parsing-value flag; it
is appended to neither buffer, so a second depth-2 `=` is silently dropped
and a committed value never contains an `=` read at depth 2 (end to end,
`a=1=2` yields value `12`). -/
theorem c10_second_equals_dropped :
    (∀ st : PState, st.depth = 2 → step st '=' = { st with parse_value := true })
    ∧ parse_attributes "\x7b\x7bInfobox|a=1=2\x7d\x7d" = [("a", "12")] := by
  refine ⟨?_, by decide⟩
  intro st hd
  unfold step
  rw [if_neg (by decide : ¬('=' = '{' ∨ '=' = '[')),
      if_neg (by decide : ¬('=' = '}' ∨ '=' = ']')),
      if_pos ⟨rfl, hd⟩]

/-- Witness for C10: at a concrete state already parsing a value, a depth-2
`=` leaves the buffers untouched. -/
theorem c10_second_equals_dropped_witness :
    step ⟨2, true, "a", "1", []⟩ '=' = ⟨2, true, "a", "1", []⟩ := by
  rw [c10_second_equals_dropped.1 ⟨2, true, "a", "1", []⟩ rfl]

theorem lookupP_map_cols (cols : List Column) (f : Column → Val) (c : Column)
    (hc : c ∈ cols) (hnd : (cols.map Column.name).Nodup) :
    lookupP (cols.map (fun c => (c.name, f c))) c.name = some (f c) := by
  induction cols with
  | nil => cases hc
  | cons a t ih =>
    rw [List.map_cons, List.nodup_cons] at hnd
    obtain ⟨hna, hndt⟩ := hnd
    rcases List.mem_cons.mp hc with rfl | hc'
    · simp [lookupP]
    · have hne : a.name ≠ c.name := by
        intro hh
        exact hna (hh ▸ List.mem_map_of_mem Column.name hc')
      simp only [List.map_cons, lookupP, if_neg hne]
      exact ih hc' hndt

theorem lookupP_map_cols_inv (cols : List Column) (f : Column → Val) (k : String)
    (w : Val) (h : lookupP (cols.map (fun c => (c.name, f c))) k = some w) :
    ∃ c ∈ cols, c.name = k ∧ f c = w := by
  induction cols with
  | nil => simp [lookupP] at h
  | cons a t ih =>
    simp only [List.map_cons, lookupP] at h
    by_cases hk : a.name = k
    · rw [if_pos hk] at h
      exact ⟨a, List.mem_cons_self a t, hk, Option.some_inj.mp h⟩
    · rw [if_neg hk] at h
      obtain ⟨c, hc, hck, hf⟩ := ih h
      exact ⟨c, List.mem_cons_of_mem a hc, hck, hf⟩

theorem lookupP_filterMap_not_mem (cols : List Column) (g : Column → Option Val)
    (k : String) (hk : k ∉ cols.map Column.name) :
    lookupP (cols.filterMap (fun c => (g c).map (fun v => (c.name, v)))) k =
      Option.none := by
  induction cols with
  | nil => rfl
  | cons a t ih =>
    simp only [List.map_cons, List.mem_cons] at hk
    push_neg at hk
    obtain ⟨hka, hkt⟩ := hk
    rw [List.filterMap_cons]
    cases hg : g a with
    | none => simpa using ih hkt
    | some v =>
      simp only [Option.map_some']
      show lookupP ((a.name, v) :: _) k = Option.none
      simp only [lookupP]
      rw [if_neg (Ne.symm hka)]
      exact ih hkt

theorem lookupP_filterMap_cols (cols : List Column) (g : Column → Option Val)
    (c : Column) (hc : c ∈ cols) (hnd : (cols.map Column.name).Nodup) :
    lookupP (cols.filterMap (fun c => (g c).map (fun v => (c.name, v)))) c.name =
      g c := by
  induction cols with
  | nil => cases hc
  | cons a t ih =>
    rw [List.map_cons, List.nodup_cons] at hnd
    obtain ⟨hna, hndt⟩ := hnd
    rcases List.mem_cons.mp hc with rfl | hc'
    · rw [List.filterMap_cons]
      cases hg : g c with
      | none =>
        simpa using lookupP_filterMap_not_mem t g c.name hna
      | some v =>
        simp only [Option.map_some']
        show lookupP ((c.name, v) :: _) c.name = some v
        simp [lookupP, hg]
    · have hne : a.name ≠ c.name := by
        intro hh
        exact hna (hh ▸ List.mem_map_of_mem Column.name hc')
      rw [List.filterMap_cons]
      cases hg : g a with
      | none => exact ih hc' hndt
      | some v =>
        simp only [Option.map_some']
        show lookupP ((a.name, v) :: _) c.name = g c
        simp only [lookupP]
        rw [if_neg hne]
        exact ih hc' hndt

theorem lookupP_insertRows (t : Table) (r : RowRec) (c : Column)
    (hc : c ∈ t.columns) (hnd : (t.columns.map Column.name).Nodup) :
    lookupP (insertRows t r) c.name = keepVal c r :=
  lookupP_filterMap_cols t.columns (fun c => keepVal c r) c hc hnd

theorem pyEq_refl (v : Val) : pyEq v v = true := by
  cases v <;> simp [pyEq]

theorem pyEq_toSql_self (v : Val) : pyEq (toSql v) v = true := by
  cases v with
  | bool b => cases b <;> rfl
  | _ => simp [pyEq, toSql]

theorem pyEq_toSql_of_pyEq (v w : Val) (h : pyEq v w = true) :
    pyEq (toSql w) v = true := by
  cases v <;> cases w <;> simp_all [pyEq, toSql]

/-- One column's insert/read-back pipeline: a value that is omitted when
equal to the default or written otherwise, materialized by the store, and
converted back by `Row.__init__`, is Python-equal to the original value.
For boolean columns the original value is itself a boolean (as `__init__`
guarantees). -/
theorem roundtrip_val (c : Column) (v : Val)
    (hb : c.ctype = ColType.boolean → ∃ b, v = Val.bool b) :
    pyEq (convCol c (toSql (if pyEq v c.default = true then c.default else v))) v
      = true := by
  by_cases hB : c.ctype = ColType.boolean
  · obtain ⟨b, rfl⟩ := hb hB
    by_cases hE : pyEq (Val.bool b) c.default = true
    · rw [if_pos hE]
      simp only [convCol, if_pos hB]
      cases hd : c.default <;> rw [hd] at hE <;> cases b <;>
        simp_all [pyEq, toSql, pyBool] <;>
        first
        | omega
        | (subst hE; norm_num)
    · rw [if_neg hE]
      simp only [convCol, if_pos hB, toSql]
      cases b <;> simp [pyBool, pyEq]
  · have hconv : ∀ w, convCol c w = w := fun w => by simp [convCol, hB]
    by_cases hE : pyEq v c.default = true
    · rw [if_pos hE, hconv]
      exact pyEq_toSql_of_pyEq v c.default hE
    · rw [if_neg hE, hconv]
      exact pyEq_toSql_self v

/-- The stored value of the id column matches the id under SQL `=`. -/
theorem sqlEq_store_id (n : Int) (dv : Val) :
    sqlEq (toSql (if pyEq (Val.int n) dv = true then dv else Val.int n))
      (Val.int n) = true := by
  by_cases h : pyEq (Val.int n) dv = true
  · rw [if_pos h]
    cases dv <;> simp_all [pyEq, toSql, sqlEq]
  · rw [if_neg h]
    simp [toSql, sqlEq]

/-- The value the store holds for column `c` after `Row.insert` of a
constructed record: the default if the record's value Python-equals the
default (the column was omitted), else the record's value — materialized
through the sqlite binding. -/
theorem stored_col_val (t : Table) (kwargs : List (String × Val))
    (raw : List (String × String)) (c : Column) (hc : c ∈ t.columns)
    (hnd : (t.columns.map Column.name).Nodup) :
    lookupP (storeRow t (insertRows t (rowInit t kwargs raw))) c.name =
      some (toSql (if pyEq (rget (rowInit t kwargs raw) c.name) c.default = true
                   then c.default else rget (rowInit t kwargs raw) c.name)) := by
  have hlook : lookupP (rowInit t kwargs raw).fields c.name =
      some (convCol c ((lookupP kwargs c.name).getD c.default)) :=
    lookupP_map_cols t.columns _ c hc hnd
  have hrg : rget (rowInit t kwargs raw) c.name =
      convCol c ((lookupP kwargs c.name).getD c.default) := by
    unfold rget
    rw [hlook]
    rfl
  have hkeep : keepVal c (rowInit t kwargs raw) =
      if pyEq (rget (rowInit t kwargs raw) c.name) c.default = true then Option.none
      else some (rget (rowInit t kwargs raw) c.name) := by
    unfold keepVal
    rw [hlook, hrg]
  have hst : lookupP (storeRow t (insertRows t (rowInit t kwargs raw))) c.name =
      some (toSql ((lookupP (insertRows t (rowInit t kwargs raw)) c.name).getD
        c.default)) :=
    lookupP_map_cols t.columns _ c hc hnd
  rw [hst, lookupP_insertRows t _ c hc hnd, hkeep]
  by_cases hE : pyEq (rget (rowInit t kwargs raw) c.name) c.default = true
  · rw [if_pos hE, if_pos hE]
    rfl
  · rw [if_neg hE, if_neg hE]
    rfl

/-- C1: a record built by `Row.__init__` and written with `Row.insert` and
read back by its integer id field through `_get_by_field` yields a record
that is Python-equal to the original on every declared column (the generic
path computes no foreign keys, so no column is excluded). -/
theorem c1_insert_get_roundtrip (t : Table) (kwargs : List (String × Val))
    (raw : List (String × String)) (idf : String) (n : Int)
    (hnd : (t.columns.map Column.name).Nodup)
    (hid : lookupP (rowInit t kwargs raw).fields idf = some (Val.int n)) :
    ∃ r', getByField t [storeRow t (insertRows t (rowInit t kwargs raw))] idf
        (Val.int n) = some r' ∧
      ∀ c ∈ t.columns,
        pyEq (rget r' c.name) (rget (rowInit t kwargs raw) c.name) = true := by
  obtain ⟨ci, hci, hciname, hcif⟩ :=
    lookupP_map_cols_inv t.columns _ idf (Val.int n) hid
  have hrgid : rget (rowInit t kwargs raw) idf = Val.int n := by
    unfold rget
    rw [hid]
    rfl
  have hstid : lookupP (storeRow t (insertRows t (rowInit t kwargs raw))) idf =
      some (toSql (if pyEq (Val.int n) ci.default = true
                   then ci.default else Val.int n)) := by
    rw [← hciname]
    rw [stored_col_val t kwargs raw ci hci hnd, hciname, hrgid]
  have hpred : sqlEq ((lookupP (storeRow t (insertRows t (rowInit t kwargs raw)))
      idf).getD Val.none) (Val.int n) = true := by
    rw [hstid]
    exact sqlEq_store_id n ci.default
  refine ⟨rowInit t (storeRow t (insertRows t (rowInit t kwargs raw))) [], ?_, ?_⟩
  · unfold getByField
    simp only [List.find?, hpred]
  · intro c hc
    have hlookb : lookupP (rowInit t
        (storeRow t (insertRows t (rowInit t kwargs raw))) []).fields c.name =
        some (convCol c ((lookupP (storeRow t (insertRows t (rowInit t kwargs raw)))
          c.name).getD c.default)) :=
      lookupP_map_cols t.columns _ c hc hnd
    have hrgb : rget (rowInit t (storeRow t (insertRows t (rowInit t kwargs raw))) [])
        c.name =
        convCol c (toSql (if pyEq (rget (rowInit t kwargs raw) c.name) c.default = true
                          then c.default else rget (rowInit t kwargs raw) c.name)) := by
      unfold rget
      rw [hlookb, stored_col_val t kwargs raw c hc hnd]
      rfl
    rw [hrgb]
    refine roundtrip_val c (rget (rowInit t kwargs raw) c.name) ?_
    intro hB
    have hlook : lookupP (rowInit t kwargs raw).fields c.name =
        some (convCol c ((lookupP kwargs c.name).getD c.default)) :=
      lookupP_map_cols t.columns _ c hc hnd
    refine ⟨pyBool ((lookupP kwargs c.name).getD c.default), ?_⟩
    unfold rget
    rw [hlook]
    simp [convCol, hB]

/-- Witness for C1 at a concrete three-column record. -/
theorem c1_insert_get_roundtrip_witness :
    ∃ r', getByField demoTable
        [storeRow demoTable (insertRows demoTable (rowInit demoTable demoKwargs []))]
        "article_id" (Val.int 1) = some r' ∧
      ∀ c ∈ demoTable.columns,
        pyEq (rget r' c.name) (rget (rowInit demoTable demoKwargs []) c.name) = true :=
  c1_insert_get_roundtrip demoTable demoKwargs [] "article_id" 1 (by decide) (by decide)

/-- C4: a declared field left unset holds the column's declared default
after construction; `Row.insert` omits exactly the columns whose value
Python-equals the default and writes the others; and a never-set field
still equals the declared default after a store round trip. -/
theorem c4_default_handling (t : Table) (kwargs : List (String × Val))
    (raw : List (String × String)) (c : Column)
    (hnd : (t.columns.map Column.name).Nodup) (hc : c ∈ t.columns)
    (hwt : WellTyped t)
    (hunset : lookupP kwargs c.name = Option.none) :
    rget (rowInit t kwargs raw) c.name = c.default
    ∧ (∀ (r : RowRec) (v : Val), lookupP r.fields c.name = some v →
        pyEq v c.default = true → lookupP (insertRows t r) c.name = Option.none)
    ∧ (∀ (r : RowRec) (v : Val), lookupP r.fields c.name = some v →
        pyEq v c.default = false → lookupP (insertRows t r) c.name = some v)
    ∧ rget (rowInit t (storeRow t (insertRows t (rowInit t kwargs raw))) []) c.name
        = c.default := by
  have hwtc := hwt c hc
  have hu : rget (rowInit t kwargs raw) c.name = c.default := by
    have hlook : lookupP (rowInit t kwargs raw).fields c.name =
        some (convCol c ((lookupP kwargs c.name).getD c.default)) :=
      lookupP_map_cols t.columns _ c hc hnd
    unfold rget
    rw [hlook, hunset]
    by_cases hB : c.ctype = ColType.boolean
    · obtain ⟨b, hbd⟩ := hwtc.1 hB
      simp [convCol, hB, hbd, pyBool]
    · simp [convCol, hB]
  refine ⟨hu, ?_, ?_, ?_⟩
  · intro r v hv hEq
    rw [lookupP_insertRows t r c hc hnd]
    unfold keepVal
    rw [hv]
    show (if pyEq v c.default = true then Option.none else some v) = Option.none
    rw [if_pos hEq]
  · intro r v hv hEq
    rw [lookupP_insertRows t r c hc hnd]
    unfold keepVal
    rw [hv]
    show (if pyEq v c.default = true then Option.none else some v) = some v
    rw [if_neg (by simp [hEq])]
  · have hlookb : lookupP (rowInit t
        (storeRow t (insertRows t (rowInit t kwargs raw))) []).fields c.name =
        some (convCol c ((lookupP (storeRow t (insertRows t (rowInit t kwargs raw)))
          c.name).getD c.default)) :=
      lookupP_map_cols t.columns _ c hc hnd
    unfold rget
    rw [hlookb, stored_col_val t kwargs raw c hc hnd]
    simp only [Option.getD_some]
    rw [hu, pyEq_refl, if_pos rfl]
    by_cases hB : c.ctype = ColType.boolean
    · obtain ⟨b, hbd⟩ := hwtc.1 hB
      rw [hbd]
      cases b <;> simp [convCol, hB, toSql, pyBool]
    · have hnb := hwtc.2 hB
      have hts : toSql c.default = c.default := by
        cases hd : c.default with
        | bool b => exact absurd hd (hnb b)
        | _ => rfl
      rw [hts]
      simp [convCol, hB]

/-- Witness for C4 at a concrete table with a never-set boolean column. -/
theorem c4_default_handling_witness :
    rget (rowInit demoTable [("article_id", Val.int 1)] []) "boss" = Val.bool false
    ∧ rget (rowInit demoTable
        (storeRow demoTable (insertRows demoTable
          (rowInit demoTable [("article_id", Val.int 1)] []))) []) "boss"
        = Val.bool false := by
  have h := c4_default_handling demoTable [("article_id", Val.int 1)] []
    ⟨"boss", ColType.boolean, Val.bool false⟩ (by decide) (by decide)
    (by intro c hc; fin_cases hc <;> simp) (by decide)
  exact ⟨h.1, h.2.2.2⟩

/-- C5: for any record kind (any attribute map, marker pattern and table),
an article whose content does not match the marker pattern makes
`from_article` yield no record at all — `None`, not an empty record and not
an error. -/
theorem c5_marker_gate (map : List (String × String × Conv)) (pat : String → Bool)
    (t : Table) (a : Article) (h : pat a.content = false) :
    fromArticle map pat t a = Except.ok Option.none := by
  unfold fromArticle
  rw [h, if_pos rfl]

/-- Witness for C5: an item article fed to the creature mapper. -/
theorem c5_marker_gate_witness :
    fromArticle creature_map hasCreatureMarker demoTable
      ⟨7, "Fire Sword", "2018-08-20", "\x7b\x7bInfobox Item|name=Sword\x7d\x7d"⟩ =
      Except.ok Option.none :=
  c5_marker_gate creature_map hasCreatureMarker demoTable
    ⟨7, "Fire Sword", "2018-08-20", "\x7b\x7bInfobox Item|name=Sword\x7d\x7d"⟩ (by decide)

/-- A boolean column of any record built by `Row.__init__` holds a true
boolean. -/
theorem rowInit_bool (t : Table) (kwargs : List (String × Val))
    (raw : List (String × String)) (c : Column) (hc : c ∈ t.columns)
    (hnd : (t.columns.map Column.name).Nodup) (hB : c.ctype = ColType.boolean) :
    ∃ b, rget (rowInit t kwargs raw) c.name = Val.bool b := by
  have hlook : lookupP (rowInit t kwargs raw).fields c.name =
      some (convCol c ((lookupP kwargs c.name).getD c.default)) :=
    lookupP_map_cols t.columns _ c hc hnd
  refine ⟨pyBool ((lookupP kwargs c.name).getD c.default), ?_⟩
  unfold rget
  rw [hlook]
  simp [convCol, hB]

/-- C9: every boolean-typed declared field of a record constructed through
`Row.__init__` — whether from keyword arguments (a stored row) or through
`from_article` — holds a true boolean value in memory. -/
theorem c9_booleans_materialized :
    (∀ (t : Table) (kwargs : List (String × Val)) (raw : List (String × String))
        (c : Column), (t.columns.map Column.name).Nodup → c ∈ t.columns →
        c.ctype = ColType.boolean →
        ∃ b, rget (rowInit t kwargs raw) c.name = Val.bool b)
    ∧ (∀ (map : List (String × String × Conv)) (pat : String → Bool) (t : Table)
        (a : Article) (rec : RowRec), (t.columns.map Column.name).Nodup →
        fromArticle map pat t a = Except.ok (some rec) →
        ∀ c ∈ t.columns, c.ctype = ColType.boolean →
        ∃ b, rget rec c.name = Val.bool b) := by
  constructor
  · intro t kwargs raw c hnd hc hB
    exact rowInit_bool t kwargs raw c hc hnd hB
  · intro map pat t a rec hnd hfa c hc hB
    unfold fromArticle at hfa
    by_cases hp : pat a.content = false
    · rw [if_pos hp] at hfa
      simp at hfa
    · rw [if_neg hp] at hfa
      split at hfa
      · exact absurd hfa (by simp)
      · rename_i kw raw' heq
        simp only [Except.ok.injEq, Option.some.injEq] at hfa
        rw [← hfa]
        exact rowInit_bool t kw raw' c hc hnd hB

/-- Witness for C9: a boolean column fed a stored 0/1 becomes a boolean. -/
theorem c9_booleans_materialized_witness :
    ∃ b, rget (rowInit demoTable [("boss", Val.int 1)] []) "boss" = Val.bool b :=
  c9_booleans_materialized.1 demoTable [("boss", Val.int 1)] []
    ⟨"boss", ColType.boolean, Val.bool false⟩ (by decide) (by decide) rfl

/-- Digit-free strings have no digit runs. -/
theorem digitRunsAux_nil (l : List Char) (h : ∀ c ∈ l, c.isDigit = false) :
    digitRunsAux [] l = [] := by
  induction l with
  | nil => rfl
  | cons c t ih =>
    unfold digitRunsAux
    rw [if_neg (by simp [h c (List.mem_cons_self c t)]), if_pos rfl]
    exact ih (fun c hc => h c (List.mem_cons_of_mem _ hc))

/-- Counterexample to C2 as stated: a Key article whose `number` attribute
is not numeric makes `from_article` raise `ValueError` (Python's bare `int`
is the registered conversion), aborting construction of the whole record
instead of yielding a default. -/
theorem c2_counterexample :
    fromArticle key_map hasKeyMarker keyTable
      ⟨1, "Key 3940", "2018-08-20", "\x7b\x7bInfobox Key|number=abc\x7d\x7d"⟩ =
      Except.error PyErr.valueError := rfl

/-- C2 (amended): every conversion function registered by the Creature and
Item mappers, and every Key mapper conversion except `number`, is total —
it never raises, and in particular `parse_maximum_integer` yields its
declared default `None` when the string holds no integer; the Key mapper's
`number` conversion is Python's bare `int`, which raises `ValueError` on
non-numeric input. -/
theorem c2_amended_conversion_defaults :
    (∀ e ∈ creature_map, ∀ s : String, ∃ v, e.2.2 s = Except.ok v)
    ∧ (∀ e ∈ item_map, ∀ s : String, ∃ v, e.2.2 s = Except.ok v)
    ∧ (∀ e ∈ key_map, e.1 ≠ "number" → ∀ s : String, ∃ v, e.2.2 s = Except.ok v)
    ∧ (∀ s : String, (∀ c ∈ s.data, c.isDigit = false) →
        parse_maximum_integer s = Val.none)
    ∧ pyInt "abc" = Except.error PyErr.valueError := by
  refine ⟨?_, ?_, ?_, ?_, rfl⟩
  · intro e he s
    fin_cases he <;> exact ⟨_, rfl⟩
  · intro e he s
    fin_cases he <;> exact ⟨_, rfl⟩
  · intro e he hne s
    fin_cases he <;> first
      | exact ⟨_, rfl⟩
      | exact absurd rfl hne
  · intro s h
    unfold parse_maximum_integer digitRuns
    rw [digitRunsAux_nil s.data h]
    rfl

/-- Witness for C2's amended theorem at concrete inputs. -/
theorem c2_amended_conversion_defaults_witness :
    (∃ v, idConv "Demon" = Except.ok v) ∧
      parse_maximum_integer "unknown" = Val.none := by
  constructor
  · exact c2_amended_conversion_defaults.1 ("article", ("article", idConv))
      (List.mem_cons_self _ _) "Demon"
  · exact c2_amended_conversion_defaults.2.2.2.1 "unknown" (by decide)

/-- A failed title lookup yields NULL. -/
theorem itemIdByTitle_none (items : List (List (String × Val))) (t : Val)
    (h : ∀ row ∈ items, sqlEq ((lookupP row "title").getD Val.none) t = false) :
    itemIdByTitle items t = Val.none := by
  unfold itemIdByTitle
  rw [List.find?_eq_none.mpr (by intro row hrow; simp [h row hrow])]

/-- C3: a dependent record (a creature drop, or a key) with no truthy
numeric id resolves its sibling reference by name through the store-side
subquery; when no sibling row matches the name, the dependent row is still
written, its foreign key is NULL, and no error is raised. -/
theorem c3_name_resolution (d : CreatureDropRec) (k : RowRec) (db : DB) (m : String)
    (hd : pyBool ((lookupP d.fields "item_id").getD Val.none) = false)
    (hnoitem : ∀ row ∈ db.item,
      sqlEq ((lookupP row "title").getD Val.none) d.item_name = false)
    (hk : pyBool (rget k "item_id") = false)
    (hmat : rget k "material" = Val.text m)
    (hnokey : ∀ row ∈ db.item,
      sqlEq ((lookupP row "title").getD Val.none) (Val.text (m ++ " Key")) = false) :
    (∃ row, (creatureDropInsert d db).creature_drop = db.creature_drop ++ [row] ∧
      lookupP row "item_id" = some Val.none)
    ∧ (∃ db' row, keyInsert k db = Except.ok db' ∧
        db'.item_key = db.item_key ++ [row] ∧
        lookupP row "item_id" = some Val.none) := by
  constructor
  · have hins : (creatureDropInsert d db).creature_drop = db.creature_drop ++
        [storeRow creatureDropTable
          [("creature_id", (lookupP d.fields "creature_id").getD Val.none),
           ("item_id", itemIdByTitle db.item d.item_name),
           ("min", (lookupP d.fields "min").getD Val.none),
           ("max", (lookupP d.fields "max").getD Val.none)]] := by
      unfold creatureDropInsert
      rw [if_neg (by simp [hd])]
    refine ⟨_, hins, ?_⟩
    rw [itemIdByTitle_none db.item d.item_name hnoitem]
    rfl
  · have hkey : keyInsert k db = Except.ok { db with item_key := db.item_key ++
        [storeRow keyTable
          [("article_id", rget k "article_id"), ("title", rget k "title"),
           ("number", rget k "number"),
           ("item_id", itemIdByTitle db.item (Val.text (m ++ " Key"))),
           ("name", rget k "name"), ("material", rget k "material"),
           ("location", rget k "location"), ("origin", rget k "origin"),
           ("notes", rget k "notes"), ("version", rget k "version"),
           ("timestamp", rget k "timestamp")]] } := by
      unfold keyInsert
      rw [if_neg (by simp [hk]), hmat]
      rfl
    refine ⟨_, _, hkey, rfl, ?_⟩
    rw [itemIdByTitle_none db.item (Val.text (m ++ " Key")) hnokey]
    rfl

/-- Witness for C3: an empty database, a drop of an unknown item, a key of
an unknown material. -/
theorem c3_name_resolution_witness :
    (∃ row, (creatureDropInsert
        (creatureDropInit [("creature_id", Val.int 1),
          ("item_name", Val.text "Fire Sword"), ("min", Val.int 1),
          ("max", Val.int 3)]) ⟨[], [], []⟩).creature_drop = [] ++ [row] ∧
      lookupP row "item_id" = some Val.none)
    ∧ (∃ db' row, keyInsert (rowInit keyTable [("article_id", Val.int 1),
        ("material", Val.text "Silver")] []) ⟨[], [], []⟩ = Except.ok db' ∧
        db'.item_key = [] ++ [row] ∧
        lookupP row "item_id" = some Val.none) := by
  exact c3_name_resolution
    (creatureDropInit [("creature_id", Val.int 1),
      ("item_name", Val.text "Fire Sword"), ("min", Val.int 1),
      ("max", Val.int 3)])
    (rowInit keyTable [("article_id", Val.int 1),
      ("material", Val.text "Silver")] [])
    ⟨[], [], []⟩ "Silver" (by decide) (by intro row hrow; cases hrow)
    (by decide) (by decide) (by intro row hrow; cases hrow)
